import Mathlib

/-!
Verification of the gmail-to-crm browser extension.

Shallow embedding of the code in `src/lib/gmail-api.ts`,
`src/background/service-worker.ts`, `src/options/options.tsx`,
`src/content/gmail-integration.tsx` and the BizDash CRM API client.
Strings are modelled as `List Char` where induction is needed; DOM reads
and HTTP responses are modelled as explicit inputs.
-/

namespace GmailToCrm

/-- Character class of the JavaScript regex `\s` (which is also exactly the
set of characters removed by `String.prototype.trim`). -/
def isJsWhitespace (c : Char) : Bool :=
  c = ' ' || c = '\t' || c = '\n' || c = '\r' || c = '\x0b' || c = '\x0c' ||
  c = ' ' || c = ' ' || (' ' ≤ c && c ≤ ' ') ||
  c = ' ' || c = ' ' || c = ' ' || c = ' ' ||
  c = '　' || c = '﻿'

/-- JavaScript `String.prototype.trim` on a list of characters. -/
def jsTrim (l : List Char) : List Char :=
  ((l.dropWhile isJsWhitespace).reverse.dropWhile isJsWhitespace).reverse

/-- `interface EmailAddress` from `src/types/index.ts`:
`email: string; name?: string`. -/
structure EmailAddress where
  email : String
  name : Option String := none
deriving DecidableEq, Repr

/-! ### The address regex

`parseEmailAddress` matches its input against the JavaScript regex

  `/^(?:"?([^"]*)"?\s)?<?([^>]+@[^>]+)>?$/`

The functions below hand-compile this anchored regex, preserving the
backtracking order of the JavaScript engine (a greedy quantifier tries the
longer alternative first; on failure of the continuation it backtracks). -/

/-- Can `g` be matched (in its entirety) by `[^>]+@[^>]+`?  This holds iff
`g` contains no `>` and contains an `@` that is neither its first nor its
last character (both `[^>]+` need at least one character). -/
def isEmailCore (g : List Char) : Bool :=
  !g.contains '>' && ((g.drop 1).dropLast).contains '@'

/-- Compilation of the regex tail `([^>]+@[^>]+)>?$` against the whole of
`l`; returns the capture of group 2.  Since group 2 cannot contain `>`,
the trailing `>?` consumes the last character exactly when it is `>`. -/
def matchEmailTail (l : List Char) : Option (List Char) :=
  match l.getLast? with
  | some c =>
    if c = '>' then
      if isEmailCore l.dropLast then some l.dropLast else none
    else
      if isEmailCore l then some l else none
  | none => none

/-- Compilation of `<?([^>]+@[^>]+)>?$`: the greedy `<?` first tries to
consume a leading `<` and backtracks to consuming nothing. -/
def matchAngled (l : List Char) : Option (List Char) :=
  match l with
  | c :: rest =>
    if c = '<' then
      match matchEmailTail rest with
      | some g => some g
      | none => matchEmailTail (c :: rest)
    else matchEmailTail (c :: rest)
  | [] => matchEmailTail []

/-- Compilation of `"?\s` followed by the tail of the regex, with group 1
already bound to `g1`: the greedy `"?` first tries to consume a quote,
then `\s` must consume one whitespace character. -/
def matchCloseQuoteWs (g1 rest : List Char) : Option (Option (List Char) × List Char) :=
  let attempt : Option (Option (List Char) × List Char) :=
    match rest with
    | c :: w :: r3 =>
      if c = '"' ∧ isJsWhitespace w then
        (matchAngled r3).map (fun g2 => (some g1, g2))
      else none
    | _ => none
  match attempt with
  | some r => some r
  | none =>
    match rest with
    | w :: r3 =>
      if isJsWhitespace w then (matchAngled r3).map (fun g2 => (some g1, g2))
      else none
    | [] => none

/-- Greedy enumeration of the capture of `([^"]*)`: `revPre` is the
(reversed) longest still-unexplored candidate; shorter candidates are tried
by moving characters back onto `suf`. -/
def tryG1 : List Char → List Char → Option (Option (List Char) × List Char)
  | [], suf =>
    match matchCloseQuoteWs ([] : List Char).reverse suf with
    | some r => some r
    | none => none
  | c :: revPre', suf =>
    match matchCloseQuoteWs ((c :: revPre').reverse) suf with
    | some r => some r
    | none => tryG1 revPre' (c :: suf)

/-- Compilation of the full regex `^(?:"?([^"]*)"?\s)?<?([^>]+@[^>]+)>?$`.
The optional name group participates if it can (greedy `?`); inside it the
leading `"?` first tries to consume a quote.  `[^"]*` can never cross a
quote, so its longest candidate is `takeWhile (· ≠ '"')`. -/
def matchAddress (l : List Char) : Option (Option (List Char) × List Char) :=
  let withOpenQuote : Option (Option (List Char) × List Char) :=
    match l with
    | c :: rest =>
      if c = '"' then
        let pre := rest.takeWhile (fun d => !(d = '"' : Bool))
        tryG1 pre.reverse (rest.drop pre.length)
      else none
    | [] => none
  match withOpenQuote with
  | some r => some r
  | none =>
    let pre := l.takeWhile (fun d => !(d = '"' : Bool))
    match tryG1 pre.reverse (l.drop pre.length) with
    | some r => some r
    | none => (matchAngled l).map (fun g2 => ((none : Option (List Char)), g2))

/-- Embeds `parseEmailAddress` (`src/lib/gmail-api.ts`, lines 120-131):
match against the regex; on success return
`{ name: match[1]?.trim() || undefined, email: match[2].trim().toLowerCase() }`,
otherwise fall back to `{ email: raw.trim().toLowerCase() }`.
`Char.toLower` agrees with `toLowerCase` on ASCII (the only case mapping
modelled here). -/
def parseEmailAddress (raw : String) : EmailAddress :=
  match matchAddress raw.data with
  | some (g1, g2) =>
    { name :=
        match g1 with
        | some n => if jsTrim n = [] then none else some (String.mk (jsTrim n))
        | none => none,
      email := String.mk ((jsTrim g2).map Char.toLower) }
  | none => { email := String.mk ((jsTrim raw.data).map Char.toLower) }

/-! ### Quote-aware comma splitting (`parseEmailAddresses`) -/

/-- The `addresses.push(current.trim())` guarded by `if (current.trim())`:
the list of addresses contributed by finishing the segment `cur`. -/
def pushTrim (cur : List Char) : List (List Char) :=
  if jsTrim cur = [] then [] else [jsTrim cur]

/-- Loop state of `parseEmailAddresses`: accumulated segments, the segment
being built, and the `inQuotes` flag. -/
structure SplitState where
  addresses : List (List Char)
  current : List Char
  inQuotes : Bool
deriving DecidableEq, Repr

/-- One iteration of the `for (const char of raw)` loop in
`parseEmailAddresses` (`src/lib/gmail-api.ts`, lines 144-152): a quote
toggles `inQuotes`; a comma outside quotes finishes the current segment;
every other character (and every character inside quotes) is appended. -/
def splitStep (s : SplitState) (c : Char) : SplitState :=
  let inQ : Bool := if c = '"' then !s.inQuotes else s.inQuotes
  if c = ',' ∧ inQ = false then
    { addresses := s.addresses ++ pushTrim s.current, current := [], inQuotes := inQ }
  else
    { addresses := s.addresses, current := s.current ++ [c], inQuotes := inQ }

/-- The full splitting loop of `parseEmailAddresses`, including the final
push of the last segment. -/
def splitAddresses (l : List Char) : List (List Char) :=
  let s := l.foldl splitStep ⟨[], [], false⟩
  s.addresses ++ pushTrim s.current

/-- Embeds `parseEmailAddresses` (`src/lib/gmail-api.ts`, lines 136-156):
empty header values return `[]`; otherwise split on commas outside quotes
and parse each segment. -/
def parseEmailAddresses (raw : String) : List EmailAddress :=
  if raw.data = [] then []
  else (splitAddresses raw.data).map (fun a => parseEmailAddress (String.mk a))

/-! ### HTTP model

Network calls are modelled by the outcome the `fetch` transport delivers
for a given URL: either the promise rejects (a transport error carrying an
arbitrary message) or a response arrives with a status code, a body text,
and — when the caller parses JSON — the parsed body. -/

/-- Outcome of one `fetch` call. -/
inductive FetchOutcome (β : Type) where
  | transportError (msg : String) : FetchOutcome β
  | response (status : Nat) (text : String) (body : β) : FetchOutcome β
deriving DecidableEq, Repr

/-- The `Response.ok` predicate of the fetch API: status in [200, 300). -/
def statusOk (status : Nat) : Bool :=
  200 ≤ status && status < 300

/-- Embeds `apiRequest` of the BizDash client (`src/unnamed/part_004`,
lines 44-68): a rejected fetch propagates; a non-2xx response throws
`BizDash API error <status>: <text>`; otherwise the parsed JSON body is
returned. -/
def apiRequest {β : Type} (o : FetchOutcome β) : Except String β :=
  match o with
  | .transportError msg => .error msg
  | .response status text body =>
    if statusOk status then .ok body
    else .error ("BizDash API error " ++ toString status ++ ": " ++ text)

/-- Parsed JSON body of `GET /api/v1/crm/emails/check`. -/
structure CheckEmailResponse where
  exists? : Bool
deriving DecidableEq, Repr

/-- URL path requested by `isEmailLogged` (the `encodeURIComponent` escaping
of the id is not modelled; it only changes which key the transport oracle is
queried at). -/
def checkEmailEndpoint (gmailMessageId : String) : String :=
  "/api/v1/crm/emails/check?gmail_message_id=" ++ gmailMessageId

/-- Embeds `isEmailLogged` (`src/unnamed/part_004`, lines 142-151): the
`apiRequest` is wrapped in `try`/`catch` with `catch { return false }`,
and on success the `exists` field of the body is returned. -/
def isEmailLogged (fetch : String → FetchOutcome CheckEmailResponse)
    (gmailMessageId : String) : Bool :=
  match apiRequest (fetch (checkEmailEndpoint gmailMessageId)) with
  | .ok result => result.exists?
  | .error _ => false

/-- Embeds `healthCheck` (`src/unnamed/part_004`, lines 160-172): a direct
`fetch` of `${apiBaseUrl}/health`; returns `response.ok`, and `false` when
the fetch throws.  The response body is never read. -/
def healthCheck (fetch : String → FetchOutcome Unit) (apiBaseUrl : String) : Bool :=
  match fetch (apiBaseUrl ++ "/health") with
  | .transportError _ => false
  | .response status _ _ => statusOk status

/-! ### Auth state (`src/options/options.tsx`) -/

/-- `interface GoogleAuthToken` from `src/types/index.ts`. -/
structure GoogleAuthToken where
  accessToken : String
  expiresAt : Nat
  refreshToken : Option String := none
  scope : String
deriving DecidableEq, Repr

/-- The `BizDashAuth` record as built by `authenticateBizDash` in
`src/options/options.tsx` (apiUrl, optional apiKey, tenantId,
isAuthenticated, userEmail). -/
structure BizDashAuth where
  apiUrl : String
  apiKey : Option String := none
  tenantId : String
  isAuthenticated : Bool
  userEmail : Option String := none
deriving DecidableEq, Repr

/-- `interface AuthState` from `src/types/index.ts`: the two tracks are
nullable, plus the combined flag. -/
structure AuthState where
  google : Option GoogleAuthToken
  bizdash : Option BizDashAuth
  isFullyAuthenticated : Bool
deriving DecidableEq, Repr

/-- A `Partial<AuthState>` argument of `updateAuthState`.  For each track,
`none` models an absent key and `some v` a present key with value `v`
(where the value itself is the nullable track).  Explicitly passing
`undefined` for a key is not modelled; no caller does that. -/
structure AuthStateUpdate where
  google : Option (Option GoogleAuthToken) := none
  bizdash : Option (Option BizDashAuth) := none
  isFullyAuthenticated : Option Bool := none
deriving DecidableEq, Repr

/-- JavaScript object-spread lookup for one key of
`{...currentAuthState, ...updates}`: a key present in `updates` overwrites
the current value, even when it is `null`. -/
def spreadGet {α : Type} (u : Option (Option α)) (c : Option α) : Option α :=
  match u with
  | some v => v
  | none => c

/-- JavaScript nullish coalescing `u ?? c`: both `null` and an absent key
fall through to `c`. -/
def nullishGet {α : Type} (u : Option (Option α)) (c : Option α) : Option α :=
  match u with
  | some (some v) => some v
  | _ => c

/-- Embeds `updateAuthState` (`src/options/options.tsx`, lines 345-353):

  currentAuthState = \x7b ...currentAuthState, ...updates,
    isFullyAuthenticated:
      (updates.google ?? currentAuthState.google) !== null &&
      (updates.bizdash ?? currentAuthState.bizdash) !== null \x7d;

The trailing explicit `isFullyAuthenticated` property always wins over any
value spread in from `updates`, so `updates.isFullyAuthenticated` is
ignored.  Note the asymmetry: the spread honours an explicit `null` in
`updates`, while `??` lets `null` fall through to the current value. -/
def updateAuthState (current : AuthState) (updates : AuthStateUpdate) : AuthState :=
  { google := spreadGet updates.google current.google,
    bizdash := spreadGet updates.bizdash current.bizdash,
    isFullyAuthenticated :=
      (nullishGet updates.google current.google).isSome &&
      (nullishGet updates.bizdash current.bizdash).isSome }

/-- Embeds `authenticateBizDash` (`src/options/options.tsx`, lines
488-529).  The health probe `fetch(apiUrl + "/health")` sits in a
`try`/`catch`; a non-2xx response throws inside the `try`, so both a
transport error and a non-2xx status end in the `catch`, which throws
`Cannot connect to BizDash at <url>. Is the server running?`.  Only on a
2xx probe does the function build the auth record, write it to storage and
call `updateAuthState`.  The result is the thrown-or-returned value
together with the auth state and the stored BIZDASH_AUTH record after the
call. -/
def authenticateBizDash (fetch : String → FetchOutcome Unit) (apiUrl : String)
    (apiKey : Option String) (current : AuthState) (stored : Option BizDashAuth) :
    Except String BizDashAuth × AuthState × Option BizDashAuth :=
  let probeOk : Bool :=
    match fetch (apiUrl ++ "/health") with
    | .transportError _ => false
    | .response status _ _ => statusOk status
  if probeOk then
    let bizdashAuth : BizDashAuth :=
      { apiUrl := apiUrl,
        -- `apiKey: apiKey || undefined` — the empty string is falsy
        apiKey := match apiKey with
          | some k => if k = "" then none else some k
          | none => none,
        tenantId := "default",
        isAuthenticated := true,
        userEmail := some "connected" }
    (.ok bizdashAuth,
     updateAuthState current { bizdash := some (some bizdashAuth) },
     some bizdashAuth)
  else
    (.error ("Cannot connect to BizDash at " ++ apiUrl ++ ". Is the server running?"),
     current, stored)

/-! ### Settings (`src/background/service-worker.ts`) -/

/-- `interface ExtensionSettings` from `src/types/index.ts`. -/
structure ExtensionSettings where
  bizdashApiUrl : String
  captureEmailBody : Bool
  autoMatchContacts : Bool
  showNotifications : Bool
deriving DecidableEq, Repr

/-- A `Partial<ExtensionSettings>` payload; `none` models an absent key. -/
structure SettingsUpdate where
  bizdashApiUrl : Option String := none
  captureEmailBody : Option Bool := none
  autoMatchContacts : Option Bool := none
  showNotifications : Option Bool := none
deriving DecidableEq, Repr

/-- `DEFAULT_SETTINGS_VALUE` from `src/background/service-worker.ts`,
lines 91-96. -/
def DEFAULT_SETTINGS_VALUE : ExtensionSettings :=
  { bizdashApiUrl := "http://localhost:8000",
    captureEmailBody := false,
    autoMatchContacts := true,
    showNotifications := true }

/-- Embeds `getSettings` (`src/background/service-worker.ts`, lines
98-104): `result.settings || DEFAULT_SETTINGS_VALUE` — a stored object is
always truthy, an absent key is `undefined` and falls back to the
default. -/
def getSettings (stored : Option ExtensionSettings) : ExtensionSettings :=
  stored.getD DEFAULT_SETTINGS_VALUE

/-- The object spread `{ ...current, ...updates }` for settings. -/
def mergeSettings (current : ExtensionSettings) (u : SettingsUpdate) : ExtensionSettings :=
  { bizdashApiUrl := u.bizdashApiUrl.getD current.bizdashApiUrl,
    captureEmailBody := u.captureEmailBody.getD current.captureEmailBody,
    autoMatchContacts := u.autoMatchContacts.getD current.autoMatchContacts,
    showNotifications := u.showNotifications.getD current.showNotifications }

/-- Embeds `updateSettings` (`src/background/service-worker.ts`, lines
106-117): read the current settings, merge the partial payload over them,
store the merged record, and return it.  The pair is (returned value,
stored record after the call). -/
def updateSettings (stored : Option ExtensionSettings) (u : SettingsUpdate) :
    ExtensionSettings × Option ExtensionSettings :=
  let current := getSettings stored
  let updated := mergeSettings current u
  (updated, some updated)

/-! ### DOM-based extraction -/

/-- `interface GmailEmail` from `src/types/index.ts`.  `date` is an epoch
timestamp standing in for the JS `Date`. -/
structure GmailEmail where
  messageId : String
  threadId : String
  subject : String
  «from» : EmailAddress
  «to» : List EmailAddress
  cc : List EmailAddress
  bcc : List EmailAddress
  date : Nat
  snippet : String
  labels : List String
  body : Option String := none
deriving DecidableEq, Repr

/-- JavaScript `a || b` for a possibly-missing string `a`: an absent value
and the empty string both fall through to `b`. -/
def jsOrString (a : Option String) (b : String) : String :=
  match a with
  | some s => if s = "" then b else s
  | none => b

/-- What `extractEmailFromDOM` reads from the element found by
`document.querySelector('[data-message-id]')`. -/
structure DomContainer where
  /-- `getAttribute('data-message-id')` (null when the attribute is absent). -/
  messageIdAttr : Option String
  /-- The `[email]` descendant: `getAttribute('email')` and
  `getAttribute('name')`/`textContent`, when such an element exists. -/
  fromEmailAttr : Option String
  fromNameAttr : Option String
  fromText : Option String
  /-- `textContent` of the body element, when found. -/
  bodyText : Option String
deriving DecidableEq, Repr

/-- The page-level DOM reads of `extractEmailFromDOM`. -/
structure DomPage where
  /-- The `[data-message-id]` container, `none` when no open email is found. -/
  container : Option DomContainer
  /-- `textContent` of the subject heading element, when one is found. -/
  subjectText : Option String
  /-- `document.title`. -/
  title : String
  /-- `Date.now()`. -/
  now : Nat
deriving DecidableEq, Repr

/-- Embeds `extractEmailFromDOM` (`src/lib/gmail-api.ts`, lines 242-290):
without an open-email container it returns `null`; otherwise it builds a
`GmailEmail` whose `threadId` is a copy of `messageId` (comment in source:
"Use message ID as thread ID for DOM extraction"). -/
def extractEmailFromDOM (page : DomPage) : Option GmailEmail :=
  match page.container with
  | none => none
  | some c =>
    let messageId := c.messageIdAttr.getD ("dom-" ++ toString page.now)
    let subject := jsOrString page.subjectText (((page.title.splitOn " - ").headD ""))
    let fromEmail := jsOrString c.fromEmailAttr ""
    let fromName := jsOrString c.fromNameAttr (jsOrString c.fromText "")
    let snippet := jsOrString (c.bodyText.map (fun t => String.mk (t.data.take 200))) ""
    some
      { messageId := messageId,
        threadId := messageId,
        subject := subject,
        «from» := { email := fromEmail, name := some fromName },
        «to» := [], cc := [], bcc := [],
        date := page.now,
        snippet := snippet,
        labels := [] }

/-- What `extractEmailFromRow` in `src/content/gmail-integration.tsx` reads
from the right-clicked inbox row. -/
structure DomRow where
  /-- Group 1 of `href.match(/#[^\x2f]+\x2f([A-Za-z0-9_-]+)/)` on the row's
  thread link, `none` when the link or the match is missing. -/
  threadIdFromHref : Option String
  /-- The `[email]` descendant's attributes/text. -/
  senderEmailAttr : Option String
  senderNameAttr : Option String
  senderText : Option String
  /-- Subject / snippet / date-column text reads. -/
  subjectText : Option String
  snippetText : Option String
  dateText : Option String
  /-- `Date.now()` and the `Math.random()` suffix used for the fallback id. -/
  now : Nat
  randomSuffix : String
deriving DecidableEq, Repr

/-- Embeds the identifier logic of `extractEmailFromRow`
(`src/content/gmail-integration.tsx`, lines 24-71): the thread id comes
from the row's link href (with a `row-<now>-<random>` fallback) and is
used for both `messageId` and `threadId`; the remaining fields are the
row's text reads (subject defaulting to `(No Subject)`, snippet with the
leading dash stripped — modelled as the read result `snippetText`). -/
def extractEmailFromRow (row : DomRow) : Option GmailEmail :=
  let threadId :=
    jsOrString row.threadIdFromHref
      ("row-" ++ toString row.now ++ "-" ++ row.randomSuffix)
  let fromEmail := jsOrString row.senderEmailAttr ""
  let fromName := jsOrString row.senderNameAttr (jsOrString row.senderText "")
  let subject := jsOrString row.subjectText "(No Subject)"
  let snippet := jsOrString row.snippetText ""
  some
    { messageId := threadId,
      threadId := threadId,
      subject := subject,
      «from» :=
        { email := fromEmail,
          name := if fromName = "" then none else some fromName },
      «to» := [], cc := [], bcc := [],
      date := row.now,
      snippet := snippet,
      labels := [] }

/-! ## Helper lemmas about trimming and the splitting loop -/

theorem dropWhile_eq_self_of_false {p : Char → Bool} {l : List Char}
    (h : ∀ c ∈ l, p c = false) : l.dropWhile p = l := by
  cases l with
  | nil => rfl
  | cons c l => rw [List.dropWhile_cons, h c (List.mem_cons_self c l)]; simp

theorem jsTrim_of_no_ws {l : List Char}
    (h : ∀ c ∈ l, isJsWhitespace c = false) : jsTrim l = l := by
  unfold jsTrim
  rw [dropWhile_eq_self_of_false h]
  rw [dropWhile_eq_self_of_false (fun c hc => h c (List.mem_reverse.mp hc))]
  exact List.reverse_reverse l

theorem jsTrim_of_all_ws {l : List Char}
    (h : ∀ c ∈ l, isJsWhitespace c = true) : jsTrim l = [] := by
  unfold jsTrim
  have h1 : l.dropWhile isJsWhitespace = [] := by
    induction l with
    | nil => rfl
    | cons c l ih =>
      rw [List.dropWhile_cons, h c (List.mem_cons_self c l)]
      exact ih (fun d hd => h d (List.mem_cons_of_mem c hd))
  rw [h1]
  rfl

theorem pushTrim_of_all_ws {l : List Char}
    (h : ∀ c ∈ l, isJsWhitespace c = true) : pushTrim l = [] := by
  rw [pushTrim, jsTrim_of_all_ws h]
  rfl

theorem splitStep_inQuotes (s : SplitState) (c : Char) :
    (splitStep s c).inQuotes = if c = '"' then !s.inQuotes else s.inQuotes := by
  simp only [splitStep]
  split <;> split <;> rfl

theorem splitStep_addresses (s : SplitState) (c : Char) :
    (splitStep s c).addresses =
      s.addresses ++ (splitStep ⟨[], s.current, s.inQuotes⟩ c).addresses := by
  simp only [splitStep]
  split <;> split <;> simp

theorem splitStep_current (s : SplitState) (c : Char) :
    (splitStep s c).current = (splitStep ⟨[], s.current, s.inQuotes⟩ c).current := by
  simp only [splitStep]
  split <;> split <;> rfl

theorem splitStep_inQuotes_base (s : SplitState) (c : Char) :
    (splitStep s c).inQuotes = (splitStep ⟨[], s.current, s.inQuotes⟩ c).inQuotes := by
  rw [splitStep_inQuotes, splitStep_inQuotes]

theorem foldl_splitStep_general (l : List Char) : ∀ s : SplitState,
    (l.foldl splitStep s).addresses
      = s.addresses ++ (l.foldl splitStep ⟨[], s.current, s.inQuotes⟩).addresses
    ∧ (l.foldl splitStep s).current
      = (l.foldl splitStep ⟨[], s.current, s.inQuotes⟩).current
    ∧ (l.foldl splitStep s).inQuotes
      = (l.foldl splitStep ⟨[], s.current, s.inQuotes⟩).inQuotes := by
  induction l with
  | nil => intro s; exact ⟨by simp, rfl, rfl⟩
  | cons c l ih =>
    intro s
    rw [List.foldl_cons, List.foldl_cons]
    obtain ⟨ha1, hc1, hq1⟩ := ih (splitStep s c)
    obtain ⟨ha2, hc2, hq2⟩ := ih (splitStep ⟨[], s.current, s.inQuotes⟩ c)
    rw [splitStep_current s c, splitStep_inQuotes_base s c] at ha1 hc1 hq1
    refine ⟨?_, ?_, ?_⟩
    · rw [ha1, ha2, splitStep_addresses s c, List.append_assoc]
    · rw [hc1, hc2]
    · rw [hq1, hq2]

theorem foldl_splitStep_parity (l : List Char) : ∀ s : SplitState,
    (l.foldl splitStep s).inQuotes
      = (s.inQuotes ^^ decide (l.count '"' % 2 = 1)) := by
  induction l with
  | nil => intro s; simp
  | cons c l ih =>
    intro s
    rw [List.foldl_cons, ih (splitStep s c), splitStep_inQuotes s c]
    by_cases hc : c = '"'
    · subst hc
      have h2 : (('"' :: l).count '"') = l.count '"' + 1 := by
        simp [List.count_cons]
      rw [h2, if_pos rfl]
      have h3 : (l.count '"' + 1) % 2 = (l.count '"' % 2 + 1) % 2 := by
        omega
      rcases Nat.mod_two_eq_zero_or_one (l.count '"') with h | h <;>
        simp [h3, h]
    · have h2 : ((c :: l).count '"') = l.count '"' := by
        simp [List.count_cons, Ne.symm hc]
      rw [h2, if_neg hc]

theorem foldl_splitStep_shift (l : List Char) (A : List (List Char))
    (cur : List Char) (q : Bool) :
    (l.foldl splitStep ⟨A, cur, q⟩).addresses
      = A ++ (l.foldl splitStep ⟨[], cur, q⟩).addresses
    ∧ (l.foldl splitStep ⟨A, cur, q⟩).current
      = (l.foldl splitStep ⟨[], cur, q⟩).current
    ∧ (l.foldl splitStep ⟨A, cur, q⟩).inQuotes
      = (l.foldl splitStep ⟨[], cur, q⟩).inQuotes :=
  foldl_splitStep_general l ⟨A, cur, q⟩

theorem splitAddresses_append_comma (a b : List Char) (h : a.count '"' % 2 = 0) :
    splitAddresses (a ++ (',' :: b)) = splitAddresses a ++ splitAddresses b := by
  simp only [splitAddresses]
  rw [List.foldl_append, List.foldl_cons]
  have hq : (a.foldl splitStep ⟨[], [], false⟩).inQuotes = false := by
    rw [foldl_splitStep_parity]
    simp [h]
  have hcomma : (',' : Char) ≠ '"' := by decide
  have hstep : splitStep (a.foldl splitStep ⟨[], [], false⟩) ','
      = ⟨(a.foldl splitStep ⟨[], [], false⟩).addresses
          ++ pushTrim (a.foldl splitStep ⟨[], [], false⟩).current, [], false⟩ := by
    simp only [splitStep]
    rw [if_neg hcomma, hq]
    simp
  rw [hstep]
  obtain ⟨ha, hc, -⟩ := foldl_splitStep_shift b
    ((a.foldl splitStep ⟨[], [], false⟩).addresses
      ++ pushTrim (a.foldl splitStep ⟨[], [], false⟩).current) [] false
  rw [ha, hc]
  simp [List.append_assoc]

theorem splitAddresses_cons_comma (b : List Char) :
    splitAddresses (',' :: b) = splitAddresses b := by
  have h := splitAddresses_append_comma [] b (by simp)
  simpa [splitAddresses] using h

theorem foldl_splitStep_no_special (l : List Char)
    (h : ∀ c ∈ l, ¬c = ',' ∧ ¬c = '"') :
    ∀ A cur, l.foldl splitStep ⟨A, cur, false⟩ = ⟨A, cur ++ l, false⟩ := by
  induction l with
  | nil => intro A cur; simp
  | cons c l ih =>
    intro A cur
    obtain ⟨hnc, hnq⟩ := h c (List.mem_cons_self c l)
    have hstep : splitStep ⟨A, cur, false⟩ c = ⟨A, cur ++ [c], false⟩ := by
      simp only [splitStep]
      rw [if_neg hnq]
      rw [if_neg (by intro hand; exact hnc hand.1)]
    rw [List.foldl_cons, hstep,
      ih (fun d hd => h d (List.mem_cons_of_mem c hd)) A (cur ++ [c])]
    simp

theorem foldl_splitStep_in_quotes (l : List Char)
    (h : ∀ c ∈ l, ¬c = '"') :
    ∀ A cur, l.foldl splitStep ⟨A, cur, true⟩ = ⟨A, cur ++ l, true⟩ := by
  induction l with
  | nil => intro A cur; simp
  | cons c l ih =>
    intro A cur
    have hnq := h c (List.mem_cons_self c l)
    have hstep : splitStep ⟨A, cur, true⟩ c = ⟨A, cur ++ [c], true⟩ := by
      simp only [splitStep]
      rw [if_neg hnq]
      rw [if_neg (by intro hand; exact absurd hand.2 (by simp))]
    rw [List.foldl_cons, hstep,
      ih (fun d hd => h d (List.mem_cons_of_mem c hd)) A (cur ++ [c])]
    simp

theorem splitAddresses_all_ws (ws : List Char)
    (h : ∀ c ∈ ws, isJsWhitespace c = true) : splitAddresses ws = [] := by
  have hspec : ∀ c ∈ ws, ¬c = ',' ∧ ¬c = '"' := by
    intro c hc
    constructor
    · intro he; subst he; exact absurd (h _ hc) (by decide)
    · intro he; subst he; exact absurd (h _ hc) (by decide)
  simp only [splitAddresses]
  rw [foldl_splitStep_no_special ws hspec [] []]
  simp [pushTrim_of_all_ws h]

theorem ws_count_quote (ws : List Char)
    (h : ∀ c ∈ ws, isJsWhitespace c = true) : ws.count '"' % 2 = 0 := by
  have h0 : ws.count '"' = 0 :=
    List.count_eq_zero.mpr (fun hmem => absurd (h _ hmem) (by decide))
  rw [h0]

theorem parseEmailAddresses_eq_map (l : List Char) :
    parseEmailAddresses (String.mk l)
      = (splitAddresses l).map (fun a => parseEmailAddress (String.mk a)) := by
  cases l with
  | nil => rfl
  | cons c l => rfl

/-! ## Helper lemmas about the regex matcher -/

theorem mem_of_mem_takeWhile {p : Char → Bool} {l : List Char} {a : Char}
    (h : a ∈ l.takeWhile p) : a ∈ l := by
  induction l with
  | nil => simp at h
  | cons c l ih =>
    rw [List.takeWhile_cons] at h
    by_cases hp : p c = true
    · rw [if_pos hp] at h
      rcases List.mem_cons.mp h with h1 | h2
      · exact h1 ▸ List.mem_cons_self c l
      · exact List.mem_cons_of_mem c (ih h2)
    · rw [if_neg hp] at h
      cases h

theorem contains_eq_false_of_not_mem {l : List Char} {a : Char} (h : a ∉ l) :
    l.contains a = false := by
  rw [List.contains, List.elem_eq_mem]
  exact decide_eq_false h

theorem contains_eq_true_of_mem {l : List Char} {a : Char} (h : a ∈ l) :
    l.contains a = true := by
  rw [List.contains, List.elem_eq_mem]
  exact decide_eq_true h

theorem isEmailCore_true {g : List Char} (h1 : ∀ c ∈ g, c ≠ '>')
    (h2 : '@' ∈ (g.drop 1).dropLast) : isEmailCore g = true := by
  unfold isEmailCore
  rw [contains_eq_false_of_not_mem (fun hm => (h1 _ hm) rfl),
    contains_eq_true_of_mem h2]
  rfl

theorem isEmailCore_false_of_no_at {g : List Char} (h : '@' ∉ g) :
    isEmailCore g = false := by
  unfold isEmailCore
  have hm : '@' ∉ (g.drop 1).dropLast := fun hmem =>
    h (List.mem_of_mem_drop (List.mem_of_mem_dropLast hmem))
  rw [contains_eq_false_of_not_mem hm]
  simp

theorem matchEmailTail_concat {email : List Char} (h1 : ∀ c ∈ email, c ≠ '>')
    (h2 : '@' ∈ (email.drop 1).dropLast) :
    matchEmailTail (email ++ ['>']) = some email := by
  unfold matchEmailTail
  rw [List.getLast?_concat]
  simp [List.dropLast_concat, isEmailCore_true h1 h2]

theorem matchEmailTail_none_of_no_at {l : List Char} (h : '@' ∉ l) :
    matchEmailTail l = none := by
  unfold matchEmailTail
  cases hl : l.getLast? with
  | none => rfl
  | some c =>
    have hd : isEmailCore l.dropLast = false :=
      isEmailCore_false_of_no_at (fun hm => h (List.mem_of_mem_dropLast hm))
    have hf : isEmailCore l = false := isEmailCore_false_of_no_at h
    simp [hd, hf]

theorem matchEmailTail_eq_of_getLast {l : List Char} {d : Char}
    (hL : l.getLast? = some d) :
    matchEmailTail l =
      (if d = '>' then (if isEmailCore l.dropLast then some l.dropLast else none)
       else (if isEmailCore l then some l else none)) := by
  unfold matchEmailTail
  rw [hL]

theorem matchAngled_angle {email : List Char} (h1 : ∀ c ∈ email, c ≠ '>')
    (h2 : '@' ∈ (email.drop 1).dropLast) :
    matchAngled ('<' :: (email ++ ['>'])) = some email := by
  have h := matchEmailTail_concat h1 h2
  simp [matchAngled, h]

theorem matchAngled_none_of_no_at {l : List Char} (h : '@' ∉ l) :
    matchAngled l = none := by
  cases l with
  | nil => rfl
  | cons c rest =>
    have ht : matchEmailTail rest = none :=
      matchEmailTail_none_of_no_at (fun hm => h (List.mem_cons_of_mem c hm))
    have hc2 : matchEmailTail (c :: rest) = none := matchEmailTail_none_of_no_at h
    simp only [matchAngled]
    by_cases hc : c = '<'
    · rw [if_pos hc, ht, hc2]
    · rw [if_neg hc, hc2]

theorem matchCloseQuoteWs_success (g1 email : List Char) (w : Char)
    (hw : isJsWhitespace w = true)
    (h1 : ∀ c ∈ email, c ≠ '>') (h2 : '@' ∈ (email.drop 1).dropLast) :
    matchCloseQuoteWs g1 ('"' :: w :: ('<' :: (email ++ ['>']))) =
      some (some g1, email) := by
  unfold matchCloseQuoteWs
  dsimp only []
  rw [if_pos (⟨rfl, hw⟩ : ('"' : Char) = '"' ∧ isJsWhitespace w = true)]
  rw [matchAngled_angle h1 h2]
  rfl

theorem matchCloseQuoteWs_none_of_no_ws {g1 rest : List Char}
    (h : ∀ c ∈ rest, isJsWhitespace c = false) :
    matchCloseQuoteWs g1 rest = none := by
  cases rest with
  | nil => rfl
  | cons w r =>
    cases r with
    | nil =>
      have hw := h w (List.mem_cons_self w [])
      unfold matchCloseQuoteWs
      dsimp only []
      rw [if_neg (by simp [hw])]
    | cons w2 r2 =>
      have hw := h w (List.mem_cons_self w (w2 :: r2))
      have hw2 := h w2 (List.mem_cons_of_mem w (List.mem_cons_self w2 r2))
      unfold matchCloseQuoteWs
      dsimp only []
      rw [if_neg (fun hand => absurd hand.2 (by simp [hw2]))]
      dsimp only []
      rw [if_neg (by simp [hw])]

theorem matchCloseQuoteWs_none_of_no_at {g1 rest : List Char} (h : '@' ∉ rest) :
    matchCloseQuoteWs g1 rest = none := by
  cases rest with
  | nil => rfl
  | cons w r =>
    cases r with
    | nil =>
      unfold matchCloseQuoteWs
      dsimp only []
      by_cases hWS : isJsWhitespace w = true
      · rw [if_pos hWS]; rfl
      · rw [if_neg hWS]
    | cons w2 r2 =>
      have ha1 : matchAngled r2 = none :=
        matchAngled_none_of_no_at
          (fun hm => h (List.mem_cons_of_mem w (List.mem_cons_of_mem w2 hm)))
      have ha2 : matchAngled (w2 :: r2) = none :=
        matchAngled_none_of_no_at (fun hm => h (List.mem_cons_of_mem w hm))
      unfold matchCloseQuoteWs
      dsimp only []
      by_cases hq : w = '"' ∧ isJsWhitespace w2 = true
      · rw [if_pos hq, ha1]
        dsimp only [Option.map]
        rw [ha2]
        by_cases hWS : isJsWhitespace w = true
        · rw [if_pos hWS]
        · rw [if_neg hWS]
      · rw [if_neg hq]
        dsimp only []
        rw [ha2]
        by_cases hWS : isJsWhitespace w = true
        · rw [if_pos hWS]; rfl
        · rw [if_neg hWS]

theorem tryG1_eq (revPre suf : List Char) :
    tryG1 revPre suf =
      match matchCloseQuoteWs revPre.reverse suf with
      | some r => some r
      | none =>
        match revPre with
        | [] => none
        | c :: revPre' => tryG1 revPre' (c :: suf) := by
  cases revPre <;> rfl

theorem tryG1_first {revPre suf : List Char} {r : Option (List Char) × List Char}
    (h : matchCloseQuoteWs revPre.reverse suf = some r) :
    tryG1 revPre suf = some r := by
  rw [tryG1_eq, h]

theorem tryG1_none_of_no_ws : ∀ revPre suf : List Char,
    (∀ c ∈ revPre, isJsWhitespace c = false) →
    (∀ c ∈ suf, isJsWhitespace c = false) → tryG1 revPre suf = none := by
  intro revPre
  induction revPre with
  | nil =>
    intro suf h1 h2
    rw [tryG1_eq, matchCloseQuoteWs_none_of_no_ws h2]
  | cons c revPre' ih =>
    intro suf h1 h2
    rw [tryG1_eq, matchCloseQuoteWs_none_of_no_ws h2]
    exact ih (c :: suf)
      (fun d hd => h1 d (List.mem_cons_of_mem c hd))
      (fun d hd => by
        rcases List.mem_cons.mp hd with hdc | hds
        · subst hdc; exact h1 d (List.mem_cons_self d revPre')
        · exact h2 d hds)

theorem tryG1_none_of_no_at : ∀ revPre suf : List Char,
    '@' ∉ revPre → '@' ∉ suf → tryG1 revPre suf = none := by
  intro revPre
  induction revPre with
  | nil =>
    intro suf h1 h2
    rw [tryG1_eq, matchCloseQuoteWs_none_of_no_at h2]
  | cons c revPre' ih =>
    intro suf h1 h2
    rw [tryG1_eq, matchCloseQuoteWs_none_of_no_at h2]
    exact ih (c :: suf)
      (fun hd => h1 (List.mem_cons_of_mem c hd))
      (fun hd => by
        rcases List.mem_cons.mp hd with hdc | hds
        · exact h1 (hdc ▸ List.mem_cons_self c revPre')
        · exact h2 hds)

theorem matchAddress_quoted (name email : List Char)
    (hq : ∀ c ∈ name, ¬c = '"')
    (h1 : ∀ c ∈ email, c ≠ '>') (h2 : '@' ∈ (email.drop 1).dropLast) :
    matchAddress ('"' :: (name ++ ('"' :: ' ' :: ('<' :: (email ++ ['>']))))) =
      some (some name, email) := by
  have hpre : (name ++ ('"' :: ' ' :: ('<' :: (email ++ ['>'])))).takeWhile
      (fun d => !(d = '"' : Bool)) = name := by
    rw [List.takeWhile_append_of_pos (fun a ha => by simp [hq a ha])]
    simp
  have hmain : tryG1 name.reverse ('"' :: ' ' :: ('<' :: (email ++ ['>']))) =
      some (some name, email) := by
    apply tryG1_first
    rw [List.reverse_reverse]
    exact matchCloseQuoteWs_success name email ' ' (by decide) h1 h2
  simp only [matchAddress, if_true]
  rw [hpre, List.drop_left, hmain]

theorem matchAddress_bare (email : List Char)
    (hws : ∀ c ∈ email, isJsWhitespace c = false)
    (hgt : ∀ c ∈ email, c ≠ '>') (hlt : ∀ c ∈ email, c ≠ '<')
    (h2 : '@' ∈ (email.drop 1).dropLast) :
    matchAddress email = some (none, email) := by
  have hne : email ≠ [] := by
    intro h
    rw [h] at h2
    simp at h2
  cases hE : email with
  | nil => exact absurd hE hne
  | cons c rest =>
    subst hE
    have hbranch2 : tryG1 ((c :: rest).takeWhile (fun d => !(d = '"' : Bool))).reverse
        ((c :: rest).drop ((c :: rest).takeWhile (fun d => !(d = '"' : Bool))).length)
        = none :=
      tryG1_none_of_no_ws _ _
        (fun d hd => hws d
          (mem_of_mem_takeWhile (List.mem_reverse.mp hd)))
        (fun d hd => hws d (List.mem_of_mem_drop hd))
    have hfall : matchAngled (c :: rest) = some (c :: rest) := by
      have hT : matchEmailTail (c :: rest) = some (c :: rest) := by
        cases hL : (c :: rest).getLast? with
        | none => exact absurd hL (by simp)
        | some d =>
          have hdne : d ≠ '>' := hgt d (List.mem_of_mem_getLast? hL)
          rw [matchEmailTail_eq_of_getLast hL, if_neg hdne,
            isEmailCore_true hgt h2]
          rfl
      simp only [matchAngled]
      rw [if_neg (hlt c (List.mem_cons_self c rest)), hT]
    by_cases hc : c = '"'
    · subst hc
      have hbranch1 : tryG1 (rest.takeWhile (fun d => !(d = '"' : Bool))).reverse
          (rest.drop (rest.takeWhile (fun d => !(d = '"' : Bool))).length) = none :=
        tryG1_none_of_no_ws _ _
          (fun d hd => hws d (List.mem_cons_of_mem _
            (mem_of_mem_takeWhile (List.mem_reverse.mp hd))))
          (fun d hd => hws d (List.mem_cons_of_mem _ (List.mem_of_mem_drop hd)))
      simp only [matchAddress, if_true]
      rw [hbranch1, hbranch2, hfall]
      rfl
    · simp only [matchAddress]
      rw [if_neg hc]
      rw [hbranch2, hfall]
      rfl

theorem matchAddress_none_of_no_at (l : List Char) (h : '@' ∉ l) :
    matchAddress l = none := by
  have hfall : matchAngled l = none := matchAngled_none_of_no_at h
  cases hE : l with
  | nil => rfl
  | cons c rest =>
    subst hE
    have hbranch2 : tryG1 ((c :: rest).takeWhile (fun d => !(d = '"' : Bool))).reverse
        ((c :: rest).drop ((c :: rest).takeWhile (fun d => !(d = '"' : Bool))).length)
        = none :=
      tryG1_none_of_no_at _ _
        (fun hd => h (mem_of_mem_takeWhile (List.mem_reverse.mp hd)))
        (fun hd => h (List.mem_of_mem_drop hd))
    by_cases hc : c = '"'
    · subst hc
      have hbranch1 : tryG1 (rest.takeWhile (fun d => !(d = '"' : Bool))).reverse
          (rest.drop (rest.takeWhile (fun d => !(d = '"' : Bool))).length) = none :=
        tryG1_none_of_no_at _ _
          (fun hd => h (List.mem_cons_of_mem _
            (mem_of_mem_takeWhile (List.mem_reverse.mp hd))))
          (fun hd => h (List.mem_cons_of_mem _ (List.mem_of_mem_drop hd)))
      simp only [matchAddress, if_true]
      rw [hbranch1, hbranch2, hfall]
      rfl
    · simp only [matchAddress]
      rw [if_neg hc]
      rw [hbranch2, hfall]
      rfl

/-! ## Theorems -/

/-- C1: `parseEmailAddresses` splits only on commas that occur outside
double quotes: a comma preceded by an even number of quotes is a real
separator (first conjunct), while with the `inQuotes` flag set every
character — commas included — is appended to the current segment and never
splits (second conjunct); hence `"Smith, John" <j@x.com>, b@y.com` parses
to exactly two addresses, with the quoted display name kept whole (third
and fourth conjuncts). -/
theorem parseEmailAddresses_quote_aware :
    (∀ a b : List Char, a.count '"' % 2 = 0 →
      splitAddresses (a ++ (',' :: b)) = splitAddresses a ++ splitAddresses b) ∧
    (∀ (A : List (List Char)) (cur name : List Char), (∀ c ∈ name, ¬c = '"') →
      name.foldl splitStep ⟨A, cur, true⟩ = ⟨A, cur ++ name, true⟩) ∧
    parseEmailAddresses "\"Smith, John\" <j@x.com>, b@y.com" =
      [{ email := "j@x.com", name := some "Smith, John" },
       { email := "b@y.com", name := none }] ∧
    (parseEmailAddresses "\"Smith, John\" <j@x.com>, b@y.com").length = 2 := by
  refine ⟨splitAddresses_append_comma, ?_, ?_, ?_⟩
  · intro A cur name h
    exact foldl_splitStep_in_quotes name h A cur
  · rfl
  · rfl

/-- Witness for C1 at concrete inputs. -/
theorem parseEmailAddresses_quote_aware_witness :
    splitAddresses ("a@x.com".data ++ (',' :: " b@y.com".data)) =
      splitAddresses "a@x.com".data ++ splitAddresses " b@y.com".data ∧
    "Smith, John".data.foldl splitStep ⟨[], [], true⟩ =
      ⟨[], [] ++ "Smith, John".data, true⟩ :=
  ⟨parseEmailAddresses_quote_aware.1 "a@x.com".data " b@y.com".data (by decide),
   parseEmailAddresses_quote_aware.2.1 [] [] "Smith, John".data (by decide)⟩

/-- C10: `parseEmailAddresses` discards empty segments: an extra comma
(conjunct 1), a whitespace-only segment between commas (conjunct 2), a
leading whitespace-only segment (conjunct 3) or a trailing one
(conjunct 4) leave the result unchanged; concretely
`a@x.com,, b@y.com` parses the same as `a@x.com, b@y.com`. -/
theorem parseEmailAddresses_discards_empty :
    (∀ a b : List Char, a.count '"' % 2 = 0 →
      parseEmailAddresses (String.mk (a ++ (',' :: (',' :: b)))) =
        parseEmailAddresses (String.mk (a ++ (',' :: b)))) ∧
    (∀ a ws b : List Char, a.count '"' % 2 = 0 →
      (∀ c ∈ ws, isJsWhitespace c = true) →
      parseEmailAddresses (String.mk (a ++ (',' :: (ws ++ (',' :: b))))) =
        parseEmailAddresses (String.mk (a ++ (',' :: b)))) ∧
    (∀ ws b : List Char, (∀ c ∈ ws, isJsWhitespace c = true) →
      parseEmailAddresses (String.mk (ws ++ (',' :: b))) =
        parseEmailAddresses (String.mk b)) ∧
    (∀ a ws : List Char, a.count '"' % 2 = 0 →
      (∀ c ∈ ws, isJsWhitespace c = true) →
      parseEmailAddresses (String.mk (a ++ (',' :: ws))) =
        parseEmailAddresses (String.mk a)) ∧
    parseEmailAddresses "a@x.com,, b@y.com" = parseEmailAddresses "a@x.com, b@y.com" := by
  refine ⟨?_, ?_, ?_, ?_, ?_⟩
  · intro a b h
    rw [parseEmailAddresses_eq_map, parseEmailAddresses_eq_map,
      splitAddresses_append_comma a _ h, splitAddresses_append_comma a _ h,
      splitAddresses_cons_comma]
  · intro a ws b h hws
    rw [parseEmailAddresses_eq_map, parseEmailAddresses_eq_map,
      splitAddresses_append_comma a _ h, splitAddresses_append_comma a _ h,
      splitAddresses_append_comma ws _ (ws_count_quote ws hws),
      splitAddresses_all_ws ws hws]
    simp
  · intro ws b hws
    rw [parseEmailAddresses_eq_map, parseEmailAddresses_eq_map,
      splitAddresses_append_comma ws _ (ws_count_quote ws hws),
      splitAddresses_all_ws ws hws]
    simp
  · intro a ws h hws
    rw [parseEmailAddresses_eq_map, parseEmailAddresses_eq_map,
      splitAddresses_append_comma a _ h, splitAddresses_all_ws ws hws]
    simp
  · rfl

/-- Witness for C10 at concrete inputs. -/
theorem parseEmailAddresses_discards_empty_witness :
    parseEmailAddresses (String.mk ("a@x.com".data ++ (',' :: (',' :: " b@y.com".data)))) =
      parseEmailAddresses (String.mk ("a@x.com".data ++ (',' :: " b@y.com".data))) :=
  parseEmailAddresses_discards_empty.1 "a@x.com".data " b@y.com".data (by decide)


/-- C3: for every input message id, when the underlying HTTP request fails
(transport error or non-2xx response), `isEmailLogged` returns `false` and
never throws (it is a total `Bool`-valued function: the `catch` swallows
every error `apiRequest` can produce); it returns `true` only when the
backend responds 2xx with `exists: true`. -/
theorem isEmailLogged_false_on_failure
    (fetch : String → FetchOutcome CheckEmailResponse) (id : String) :
    (∀ msg, fetch (checkEmailEndpoint id) = .transportError msg →
      isEmailLogged fetch id = false) ∧
    (∀ status text body, fetch (checkEmailEndpoint id) = .response status text body →
      statusOk status = false → isEmailLogged fetch id = false) ∧
    (isEmailLogged fetch id = true →
      ∃ status text body, fetch (checkEmailEndpoint id) = .response status text body ∧
        statusOk status = true ∧ body.exists? = true) := by
  refine ⟨?_, ?_, ?_⟩
  · intro msg h
    simp [isEmailLogged, apiRequest, h]
  · intro status text body h hst
    simp [isEmailLogged, apiRequest, h, hst]
  · intro h
    unfold isEmailLogged apiRequest at h
    cases hf : fetch (checkEmailEndpoint id) with
    | transportError msg => rw [hf] at h; simp at h
    | response status text body =>
      rw [hf] at h
      by_cases hok : statusOk status = true
      · simp only [hok, if_true] at h
        exact ⟨status, text, body, rfl, hok, h⟩
      · simp [hok] at h

/-- Witness for C3 at a concrete input: a rejected fetch yields `false`. -/
theorem isEmailLogged_false_on_failure_witness :
    isEmailLogged (fun _ => .transportError "ECONNREFUSED") "mock-message-123" = false :=
  (isEmailLogged_false_on_failure (fun _ => .transportError "ECONNREFUSED")
    "mock-message-123").1 "ECONNREFUSED" rfl

/-- C7: for every configured base URL and every outcome of the GET to
`/health`, `healthCheck` never throws (total `Bool`-valued function): it
returns `response.ok`, i.e. `true` exactly for a 2xx status, and `false`
for any transport error. -/
theorem healthCheck_ok_iff (fetch : String → FetchOutcome Unit) (apiBaseUrl : String) :
    (∀ msg, fetch (apiBaseUrl ++ "/health") = .transportError msg →
      healthCheck fetch apiBaseUrl = false) ∧
    (∀ status text body, fetch (apiBaseUrl ++ "/health") = .response status text body →
      healthCheck fetch apiBaseUrl = statusOk status) ∧
    (healthCheck fetch apiBaseUrl = true ↔
      ∃ status text body, fetch (apiBaseUrl ++ "/health") = .response status text body ∧
        statusOk status = true) := by
  refine ⟨?_, ?_, ?_⟩
  · intro msg h; simp [healthCheck, h]
  · intro status text body h; simp [healthCheck, h]
  · constructor
    · intro h
      unfold healthCheck at h
      cases hf : fetch (apiBaseUrl ++ "/health") with
      | transportError msg => rw [hf] at h; simp at h
      | response status text body =>
        rw [hf] at h
        exact ⟨status, text, body, rfl, h⟩
    · rintro ⟨status, text, body, hf, hok⟩
      simp [healthCheck, hf, hok]

/-- Witness for C7 at concrete inputs: a 200 response yields `true`, a 500
response yields `false`. -/
theorem healthCheck_ok_iff_witness :
    healthCheck (fun _ => .response 200 "" ()) "http://localhost:8000" = true ∧
    healthCheck (fun _ => .response 500 "oops" ()) "http://localhost:8000" = false := by
  constructor
  · exact (healthCheck_ok_iff (fun _ => .response 200 "" ())
      "http://localhost:8000").2.2.mpr ⟨200, "", (), rfl, rfl⟩
  · exact (healthCheck_ok_iff (fun _ => .response 500 "oops" ())
      "http://localhost:8000").2.1 500 "oops" () rfl

/-- A Google token as stored after a successful OAuth flow. -/
def sampleGoogleToken : GoogleAuthToken :=
  { accessToken := "ya29.sample", expiresAt := 3600000, scope := "gmail.readonly" }

/-- A BizDash auth record as built by `authenticateBizDash`. -/
def sampleBizDashAuth : BizDashAuth :=
  { apiUrl := "http://localhost:8000", tenantId := "default",
    isAuthenticated := true, userEmail := some "connected" }

/-- The state produced by the `signOutGoogle` call
`updateAuthState({ google: null })` from a fully-authenticated state. -/
def authStateAfterSignOutGoogle : AuthState :=
  updateAuthState
    { google := some sampleGoogleToken, bizdash := some sampleBizDashAuth,
      isFullyAuthenticated := true }
    { google := some none }

/-- C4: the claimed invariant — `isFullyAuthenticated` true iff both tracks
are non-null, re-established by every `updateAuthState` call — fails on the
code.  `signOutGoogle` calls `updateAuthState({ google: null })`; the spread
stores `google = null`, but the recomputation uses
`updates.google ?? currentAuthState.google`, and `null ?? x` is `x`, so the
flag is computed from the old non-null token and stays `true` while
`google` is `null`. -/
theorem updateAuthState_signOut_breaks_invariant :
    authStateAfterSignOutGoogle.google = none ∧
    authStateAfterSignOutGoogle.bizdash = some sampleBizDashAuth ∧
    authStateAfterSignOutGoogle.isFullyAuthenticated = true ∧
    authStateAfterSignOutGoogle.isFullyAuthenticated ≠
      (authStateAfterSignOutGoogle.google.isSome &&
       authStateAfterSignOutGoogle.bizdash.isSome) :=
  ⟨rfl, rfl, rfl, by decide⟩

/-- C5: `updateSettings` with a partial payload preserves every field absent
from the payload, and with the payload `{showNotifications: false}` the
returned and stored record equals the previous settings with only
`showNotifications` changed. -/
theorem updateSettings_partial_preserves
    (stored : Option ExtensionSettings) (u : SettingsUpdate) :
    ((u.bizdashApiUrl = none →
        (updateSettings stored u).1.bizdashApiUrl = (getSettings stored).bizdashApiUrl) ∧
     (u.captureEmailBody = none →
        (updateSettings stored u).1.captureEmailBody = (getSettings stored).captureEmailBody) ∧
     (u.autoMatchContacts = none →
        (updateSettings stored u).1.autoMatchContacts = (getSettings stored).autoMatchContacts) ∧
     (u.showNotifications = none →
        (updateSettings stored u).1.showNotifications = (getSettings stored).showNotifications)) ∧
    ((updateSettings stored { showNotifications := some false }).1 =
        { getSettings stored with showNotifications := false } ∧
     (updateSettings stored { showNotifications := some false }).2 =
        some { getSettings stored with showNotifications := false }) := by
  refine ⟨⟨?_, ?_, ?_, ?_⟩, ?_, ?_⟩ <;>
    first
      | (intro h; simp [updateSettings, mergeSettings, h])
      | simp [updateSettings, mergeSettings]

/-- Witness for C5 at concrete inputs: with nothing stored and the payload
`{showNotifications: false}`, the other three fields keep their previous
(default) values. -/
theorem updateSettings_partial_preserves_witness :
    (updateSettings none { showNotifications := some false }).1.bizdashApiUrl =
      (getSettings none).bizdashApiUrl ∧
    (updateSettings none { showNotifications := some false }).1.captureEmailBody =
      (getSettings none).captureEmailBody ∧
    (updateSettings none { showNotifications := some false }).1.autoMatchContacts =
      (getSettings none).autoMatchContacts :=
  ⟨(updateSettings_partial_preserves none { showNotifications := some false }).1.1 rfl,
   (updateSettings_partial_preserves none { showNotifications := some false }).1.2.1 rfl,
   (updateSettings_partial_preserves none { showNotifications := some false }).1.2.2.1 rfl⟩

/-- C6: whenever the health probe fails (transport error or non-2xx
response), `authenticateBizDash` throws
`Cannot connect to BizDash at <url>. Is the server running?` and leaves
the auth state and the stored BIZDASH_AUTH record unchanged. -/
theorem authenticateBizDash_unreachable
    (fetch : String → FetchOutcome Unit) (apiUrl : String) (apiKey : Option String)
    (current : AuthState) (stored : Option BizDashAuth)
    (h : (match fetch (apiUrl ++ "/health") with
          | .transportError _ => false
          | .response status _ _ => statusOk status) = false) :
    authenticateBizDash fetch apiUrl apiKey current stored =
      (.error ("Cannot connect to BizDash at " ++ apiUrl ++ ". Is the server running?"),
       current, stored) := by
  unfold authenticateBizDash
  rw [h]
  simp

/-- Witness for C6 at concrete inputs: a refused connection yields the
human-readable error and an unchanged state. -/
theorem authenticateBizDash_unreachable_witness :
    authenticateBizDash (fun _ => .transportError "ECONNREFUSED")
      "http://localhost:8000" none
      { google := none, bizdash := none, isFullyAuthenticated := false } none =
      (.error "Cannot connect to BizDash at http://localhost:8000. Is the server running?",
       { google := none, bizdash := none, isFullyAuthenticated := false }, none) :=
  authenticateBizDash_unreachable (fun _ => .transportError "ECONNREFUSED")
    "http://localhost:8000" none
    { google := none, bizdash := none, isFullyAuthenticated := false } none rfl

/-- C9: every email record produced by DOM-based extraction — both
`extractEmailFromDOM` and the content script's `extractEmailFromRow` — has
`messageId` equal to `threadId`, so the CRM deduplication key
`gmailMessageId` is a thread identifier for DOM-extracted emails. -/
theorem extract_messageId_eq_threadId :
    (∀ page e, extractEmailFromDOM page = some e → e.messageId = e.threadId) ∧
    (∀ row e, extractEmailFromRow row = some e → e.messageId = e.threadId) := by
  constructor
  · intro page e h
    unfold extractEmailFromDOM at h
    cases hc : page.container with
    | none => rw [hc] at h; cases h
    | some c =>
      rw [hc] at h
      simp only [Option.some.injEq] at h
      rw [← h]
  · intro row e h
    unfold extractEmailFromRow at h
    simp only [Option.some.injEq] at h
    rw [← h]

/-- A concrete open-email DOM snapshot. -/
def samplePage : DomPage :=
  { container := some
      { messageIdAttr := some "msg-abc123",
        fromEmailAttr := some "john@example.com",
        fromNameAttr := none,
        fromText := some "John Smith",
        bodyText := some "Hello there" },
    subjectText := some "Re: Project Update",
    title := "Re: Project Update - Gmail",
    now := 1700000000000 }

/-- The record `extractEmailFromDOM` produces from `samplePage`. -/
def sampleExtracted : GmailEmail :=
  { messageId := "msg-abc123",
    threadId := "msg-abc123",
    subject := "Re: Project Update",
    «from» := { email := "john@example.com", name := some "John Smith" },
    «to» := [], cc := [], bcc := [],
    date := 1700000000000,
    snippet := "Hello there",
    labels := [] }

/-- Witness for C9 at a concrete input. -/
theorem extract_messageId_eq_threadId_witness :
    extractEmailFromDOM samplePage = some sampleExtracted ∧
    sampleExtracted.messageId = sampleExtracted.threadId :=
  ⟨rfl, extract_messageId_eq_threadId.1 samplePage sampleExtracted rfl⟩

/-- C2: for a well-formed `"Name" <email>` string (no quote in the name,
the name already trimmed and nonempty, the email free of `>` with an `@`
strictly inside it and already trimmed), `parseEmailAddress` returns the
name as the display name and the email lower-cased; for a bare address
(no whitespace, no angle brackets, an `@` strictly inside),
it returns only the lower-cased email with no name field. -/
theorem parseEmailAddress_wellformed :
    (∀ name email : List Char,
      (∀ c ∈ name, ¬c = '"') → jsTrim name = name → name ≠ [] →
      (∀ c ∈ email, c ≠ '>') → '@' ∈ (email.drop 1).dropLast →
      jsTrim email = email →
      parseEmailAddress
          (String.mk ('"' :: (name ++ ('"' :: ' ' :: ('<' :: (email ++ ['>'])))))) =
        { email := String.mk (email.map Char.toLower),
          name := some (String.mk name) }) ∧
    (∀ email : List Char,
      (∀ c ∈ email, isJsWhitespace c = false) →
      (∀ c ∈ email, c ≠ '>') → (∀ c ∈ email, c ≠ '<') →
      '@' ∈ (email.drop 1).dropLast →
      parseEmailAddress (String.mk email) =
        { email := String.mk (email.map Char.toLower), name := none }) := by
  constructor
  · intro name email hq ht hne h1 h2 hte
    unfold parseEmailAddress
    rw [show (String.mk ('"' :: (name ++ ('"' :: ' ' :: ('<' :: (email ++ ['>'])))))).data
        = '"' :: (name ++ ('"' :: ' ' :: ('<' :: (email ++ ['>'])))) from rfl]
    rw [matchAddress_quoted name email hq h1 h2]
    dsimp only []
    rw [ht, if_neg hne, hte]
  · intro email hws hgt hlt h2
    unfold parseEmailAddress
    rw [show (String.mk email).data = email from rfl]
    rw [matchAddress_bare email hws hgt hlt h2]
    dsimp only []
    rw [jsTrim_of_no_ws hws]

/-- Witness for C2 at concrete inputs: the quoted form
`"John Smith" <john@EXAMPLE.com>` and the bare form `john@example.com`. -/
theorem parseEmailAddress_wellformed_witness :
    parseEmailAddress
        (String.mk ('"' :: ("John Smith".data ++
          ('"' :: ' ' :: ('<' :: ("john@EXAMPLE.com".data ++ ['>'])))))) =
      { email := String.mk ("john@EXAMPLE.com".data.map Char.toLower),
        name := some (String.mk "John Smith".data) } ∧
    parseEmailAddress (String.mk "john@example.com".data) =
      { email := String.mk ("john@example.com".data.map Char.toLower),
        name := none } :=
  ⟨parseEmailAddress_wellformed.1 "John Smith".data "john@EXAMPLE.com".data
      (by decide) (by decide) (by decide) (by decide) (by decide) (by decide),
   parseEmailAddress_wellformed.2 "john@example.com".data
      (by decide) (by decide) (by decide) (by decide)⟩

/-- C8: for a malformed address string — in particular any string with no
`@`, which the regex can never match since group 2 requires one —
`parseEmailAddress` falls back to the whole trimmed, lower-cased string as
the email with no display name; and `parseEmailAddresses` of the empty
header value returns the empty list (and, being a total function, never
raises). -/
theorem parseEmailAddress_malformed_fallback :
    (∀ raw : String, '@' ∉ raw.data →
      parseEmailAddress raw =
        { email := String.mk ((jsTrim raw.data).map Char.toLower), name := none }) ∧
    parseEmailAddresses "" = [] := by
  constructor
  · intro raw h
    unfold parseEmailAddress
    rw [matchAddress_none_of_no_at raw.data h]
  · rfl

/-- Witness for C8 at a concrete input: a string with no `@`. -/
theorem parseEmailAddress_malformed_fallback_witness :
    parseEmailAddress "not-an-email" =
      { email := String.mk ((jsTrim "not-an-email".data).map Char.toLower),
        name := none } :=
  parseEmailAddress_malformed_fallback.1 "not-an-email" (by decide)

end GmailToCrm
